import Mathlib

/-!
Shallow embedding of the HyperTCP test server (`HyperTCPTestServer.py`):
the 5-byte header codec, the routing registry (connection table, device
groups, admin set), and the per-connection frame handler of
`HyperTCPProtocolServer.handle_client`, together with proofs of the
specification's claims about them.
-/

namespace HyperTCP

/-! ## JSON values

Payloads of LOGIN / JSON_MESSAGE / BROADCAST frames are JSON texts parsed
with `json.loads`.  We embed JSON values directly; objects are
insertion-ordered association lists, as Python dicts are. -/

inductive Json where
  | str (s : String)
  | num (n : Int)
  | bool (b : Bool)
  | null
  | arr (elems : List Json)
  | obj (fields : List (String × Json))

/-- Python `d.get(k)` on an insertion-ordered dict: value of the first
(binding for) key `k`, if present. -/
def objGet (fields : List (String × Json)) (k : String) : Option Json :=
  match fields with
  | [] => none
  | (k2, v) :: rest => if k2 = k then some v else objGet rest k

/-- Python `d.get(k, default)`. -/
def objGetD (fields : List (String × Json)) (k : String) (d : Json) : Json :=
  (objGet fields k).getD d

/-- Python `d[k] = v` on a dict: replace the value in place if the key is
present, otherwise append the new binding at the end. -/
def objInsert (fields : List (String × Json)) (k : String) (v : Json) :
    List (String × Json) :=
  if fields.any (fun p => p.1 = k) then
    fields.map (fun p => if p.1 = k then (p.1, v) else p)
  else fields ++ [(k, v)]

/-- Python `base.update(upd)`: fold `objInsert` over the update dict. -/
def objUpdate (base upd : List (String × Json)) : List (String × Json) :=
  upd.foldl (fun acc kv => objInsert acc kv.1 kv.2) base

/-- Python `j == s` for a string literal `s`: true exactly when `j` is that
string (no cross-type equalities arise for the strings the server uses). -/
def isStrEq (j : Json) (s : String) : Bool :=
  match j with
  | .str t => t = s
  | _ => false

/-- Python `s.startswith(pre)`, computed on the character lists. -/
def startswith (s pre : String) : Bool :=
  pre.data.isPrefixOf s.data

/-- Whether a JSON value is an object (a Python dict after `json.loads`). -/
def isObj (j : Json) : Bool :=
  match j with
  | .obj _ => true
  | _ => false

/-! ## Header codec (`HyperTCPHeader`)

`pack` is `struct.pack('!BHH', type, msg_id, length)`: big-endian u8/u16/u16,
raising (`none`) when a field is out of range.  `unpack` is
`struct.unpack('!BHH', data)` on exactly five bytes. -/

namespace HyperTCPHeader

def pack (type msg_id len : Nat) : Option (List Nat) :=
  if type < 256 ∧ msg_id < 65536 ∧ len < 65536 then
    some [type, msg_id / 256, msg_id % 256, len / 256, len % 256]
  else none

def unpack (data : List Nat) : Option (Nat × Nat × Nat) :=
  match data with
  | [b0, b1, b2, b3, b4] => some (b0, b1 * 256 + b2, b3 * 256 + b4)
  | _ => none

end HyperTCPHeader

/-! ## Protocol constants -/

def HYPER_TCP_CMD_RESPONSE : Nat := 0
def HYPER_TCP_CMD_PING : Nat := 6
def HYPER_TCP_CMD_LOGIN : Nat := 29
def HYPER_TCP_CMD_JSON_MESSAGE : Nat := 30
def HYPER_TCP_CMD_REDIRECT : Nat := 41
def HYPER_TCP_CMD_BROADCAST : Nat := 50

def HYPER_TCP_STATUS_SUCCESS : Nat := 200
def HYPER_TCP_STATUS_INVALID_TOKEN : Nat := 9
def HYPER_TCP_STATUS_NOT_AUTHENTICATED : Nat := 5
def HYPER_TCP_STATUS_TIMEOUT : Nat := 16

/-! ## Routing registry

`HyperTCPProtocolServer` keeps `self.clients` (a dict from connection id to
a per-client record), `self.device_connections` (a `defaultdict(list)` from
device id to the list of connection ids), and `self.admin_clients` (a set).
Dicts are insertion-ordered association lists; the set is a duplicate-free
list. Socket, address and connect-time fields are transport details the
claims do not touch and are omitted. -/

structure ClientInfo where
  authenticated : Bool
  device_id : Option String
  is_admin : Bool
deriving DecidableEq

structure Registry where
  clients : List (String × ClientInfo)
  device_connections : List (String × List String)
  admin_clients : List String
deriving DecidableEq

/-- Python `self.clients[cid]` / `cid in self.clients`. -/
def lookupClient (cs : List (String × ClientInfo)) (cid : String) :
    Option ClientInfo :=
  match cs with
  | [] => none
  | (k, v) :: rest => if k = cid then some v else lookupClient rest cid

/-- Python `self.clients[cid][field] = …`: update the record stored under an
existing key in place. -/
def setClient (cs : List (String × ClientInfo)) (cid : String)
    (f : ClientInfo → ClientInfo) : List (String × ClientInfo) :=
  match cs with
  | [] => []
  | (k, v) :: rest =>
    (if k = cid then (k, f v) else (k, v)) :: setClient rest cid f

/-- Python `del self.clients[cid]` (keys are unique, so removing every
binding of the key is the same operation). -/
def removeKey (cs : List (String × ClientInfo)) (cid : String) :
    List (String × ClientInfo) :=
  match cs with
  | [] => []
  | (k, v) :: rest =>
    if k = cid then removeKey rest cid else (k, v) :: removeKey rest cid

/-- Python `self.admin_clients.discard(cid)`. -/
def removeAdmin (ac : List String) (cid : String) : List String :=
  match ac with
  | [] => []
  | a :: rest =>
    if a = cid then removeAdmin rest cid else a :: removeAdmin rest cid

/-- Python `del self.device_connections[d]`. -/
def removeDCKey (dc : List (String × List String)) (d : String) :
    List (String × List String) :=
  match dc with
  | [] => []
  | (k, v) :: rest =>
    if k = d then removeDCKey rest d else (k, v) :: removeDCKey rest d

/-- Python `self.device_connections[d] = g` on an existing key. -/
def replaceGroup (dc : List (String × List String)) (d : String)
    (g : List String) : List (String × List String) :=
  match dc with
  | [] => []
  | (k, v) :: rest =>
    (if k = d then (k, g) else (k, v)) :: replaceGroup rest d g

/-- Python `device_id in self.device_connections` / indexing. -/
def lookupDC (dc : List (String × List String)) (d : String) :
    Option (List String) :=
  match dc with
  | [] => none
  | (k, v) :: rest => if k = d then some v else lookupDC rest d

/-- Python `self.device_connections[device_id].append(cid)` on a
`defaultdict(list)`: extend the list under the key if present (keys are
unique), otherwise add a new singleton binding at the end. -/
def dcAppend (dc : List (String × List String)) (d cid : String) :
    List (String × List String) :=
  match dc with
  | [] => [(d, [cid])]
  | (k, v) :: rest =>
    if k = d then (k, v ++ [cid]) :: rest else (k, v) :: dcAppend rest d cid

/-- Python `self.admin_clients.add(cid)`. -/
def adminAdd (ac : List String) (cid : String) : List String :=
  if cid ∈ ac then ac else ac ++ [cid]

/-- Total number of occurrences of a connection id across all device
groups. -/
def gcount (dc : List (String × List String)) (cid : String) : Nat :=
  (dc.map (fun p => p.2.count cid)).sum

/-- The record stored for a freshly accepted connection (lines 104–111 of
the source): unauthenticated, no device id, not admin. -/
def freshInfo : ClientInfo := ⟨false, none, false⟩

/-- `HyperTCPProtocolServer.cleanup_client_connection` restricted to its
registry effect (the `notify_admin_channels` call and the socket close do
not touch the three structures).  Mirrors lines 382–427: the guard
`if client_id and client_id in self.clients`, deletion from `clients`,
`admin_clients.discard` for admins, and for devices `list.remove` of the
first occurrence from the stored device id's group followed by deletion of
the group when it became empty (guarded by `if device_id and …`). -/
def cleanup_client_connection (r : Registry) (cid : String) : Registry :=
  if cid = "" then r
  else
    match lookupClient r.clients cid with
    | none => r
    | some info =>
      let clients' := removeKey r.clients cid
      if info.is_admin then
        { r with clients := clients',
                 admin_clients := removeAdmin r.admin_clients cid }
      else
        match info.device_id with
        | none => { r with clients := clients' }
        | some d =>
          if d = "" then { r with clients := clients' }
          else
            match lookupDC r.device_connections d with
            | none => { r with clients := clients' }
            | some grp =>
              if cid ∈ grp then
                let grp' := grp.erase cid
                let dc' :=
                  if grp' = [] then removeDCKey r.device_connections d
                  else replaceGroup r.device_connections d grp'
                { r with clients := clients', device_connections := dc' }
              else { r with clients := clients' }

/-! ## Frames, effects, and the session step

One iteration of the `while True` read loop in
`HyperTCPProtocolServer.handle_client` (lines 115–332), for one fully read
frame.  Payloads are classified by the outcome of `payload.decode('utf-8')`
followed by `json.loads`: a value that parses as JSON, valid UTF-8 text that
is not JSON (raising `json.JSONDecodeError`), or bytes that are not valid
UTF-8 (raising `UnicodeDecodeError`, which no handler catches). -/

inductive PayloadView where
  | json (j : Json)
  | rawText (s : String)
  | notUtf8

/-- Payload of a frame the server writes. -/
inductive OutPayload where
  | empty
  | statusByte (b : Nat)
  | jsonBody (fields : List (String × Json))

/-- A frame the server writes: header fields plus payload. -/
structure OutFrame where
  type : Nat
  msg_id : Nat
  payload : OutPayload

/-- Observable side effects of handling one frame, in program order.
`sendSelf` is a write to the handling connection's own socket; the others
are writes to other sockets (`send_initial_connection_status`,
`notify_admin_channels`, `handle_server_message`, `send_to_device`,
`broadcast_message`), recorded abstractly. -/
inductive Effect where
  | sendSelf (f : OutFrame)
  | sendInitialStatus
  | adminNotify (event : List (String × Json))
  | serverMsg (msg : List (String × Json))
  | sendToDevice (d : String) (msg : List (String × Json))
  | broadcastMsg (msg : List (String × Json))

/-- How one loop iteration ends: keep reading (`cont`), leave the loop via
`break` (`brk`), or via an uncaught exception (`exn`).  Either of the last
two ends the session; the `finally` block then runs
`cleanup_client_connection`. -/
inductive LoopExit where
  | cont
  | brk
  | exn
deriving DecidableEq

structure StepResult where
  exit : LoopExit
  trace : List Effect
  reg : Registry

/-- Body of `send_welcome_message` (lines 502–507). -/
def welcome_data (cid : String) (now : Nat) : List (String × Json) :=
  [("type", .str "welcome"),
   ("message", .str "Connected to HyperTCP server"),
   ("clientId", .str cid),
   ("timestamp", .num now)]

def welcomeFrame (cid : String) (now : Nat) : OutFrame :=
  ⟨HYPER_TCP_CMD_JSON_MESSAGE, 0, .jsonBody (welcome_data cid now)⟩

/-- Body built by `send_pong_response` (lines 522–529): the pong dict, then
`pong_data.update(ping_payload)` — the original ping fields overwrite. -/
def pong_data (ping_payload : List (String × Json)) (now : Nat) :
    List (String × Json) :=
  objUpdate
    [("type", .str "pong"), ("command", .str "pong"), ("timestamp", .num now)]
    ping_payload

def pongFrame (ping_payload : List (String × Json)) (now : Nat) : OutFrame :=
  ⟨HYPER_TCP_CMD_JSON_MESSAGE, 0, .jsonBody (pong_data ping_payload now)⟩

/-- The `deviceConnected` event sent to admins (lines 182–187). -/
def device_connected_event (d cid : String) (now : Nat) :
    List (String × Json) :=
  [("event", .str "deviceConnected"),
   ("deviceId", .str d),
   ("clientId", .str cid),
   ("timestamp", .num now)]

/-- The `from` value stamped into envelopes: `self.clients[cid].get
('device_id', cid)` returns the stored value — possibly `None` — because the
key always exists in the per-client record. -/
def senderJson (device_id : Option String) : Json :=
  match device_id with
  | some d => .str d
  | none => .null

/-- `route_message` (lines 436–450), as the effects it emits.  Comparing an
unhashable `targetId` (a JSON object or array) with `in
self.device_connections` raises `TypeError` (`none`); other JSON values
compare/hash fine, and a miss is only logged. -/
def route_message (dc : List (String × List String)) (target : Option Json)
    (msg : List (String × Json)) : Option (List Effect) :=
  match target with
  | some (.str s) =>
    if s = "broadcast" then some [.broadcastMsg msg]
    else if s = "server" then some [.serverMsg msg]
    else if dc.any (fun p => p.1 = s) then some [.sendToDevice s msg]
    else some []
  | some (.obj _) => none
  | some (.arr _) => none
  | _ => some []

/-- The legacy raw-token LOGIN path: the `except json.JSONDecodeError`
branch at lines 199–254.  The whole payload is the token, the device id
defaults to the connection's temporary id, and the RESPONSE is sent before
the welcome / registration side effects. -/
def legacyLoginStep (r : Registry) (cid : String) (now msgId : Nat)
    (s : String) : StepResult :=
  let token := s
  let device_id := cid
  let is_admin : Bool := token = "admin_token"
  let authenticated : Bool :=
    if is_admin then token = "admin_token" else token = "your_auth_token_here"
  let status :=
    if authenticated then HYPER_TCP_STATUS_SUCCESS
    else HYPER_TCP_STATUS_INVALID_TOKEN
  match lookupClient r.clients cid with
  | none => { exit := .exn, trace := [], reg := r }
  | some _ =>
    let clients1 := setClient r.clients cid (fun i =>
      { i with authenticated := authenticated, is_admin := is_admin,
               device_id := some device_id })
    let resp : Effect := .sendSelf ⟨HYPER_TCP_CMD_RESPONSE, msgId, .statusByte status⟩
    if authenticated then
      if is_admin then
        { exit := .cont,
          trace := [resp, .sendSelf (welcomeFrame cid now), .sendInitialStatus],
          reg := { r with clients := clients1,
                          admin_clients := adminAdd r.admin_clients cid } }
      else
        { exit := .cont,
          trace := [resp, .sendSelf (welcomeFrame cid now),
                    .adminNotify (device_connected_event device_id cid now)],
          reg := { r with clients := clients1,
                          device_connections :=
                            dcAppend r.device_connections device_id cid } }
    else
      { exit := .brk, trace := [resp], reg := { r with clients := clients1 } }

/-- The LOGIN branch (lines 132–254).  In the JSON path, a payload that is
not a JSON object makes `login_data.get` raise, and a non-string
`device_id` value makes `device_id.startswith` raise, both before any state
change; on success the welcome and the admin-side notification are emitted
before the RESPONSE (lines 158–194), and `break` follows a failed
authentication after its RESPONSE. -/
def loginStep (r : Registry) (cid : String) (now msgId : Nat)
    (pv : PayloadView) : StepResult :=
  match pv with
  | .notUtf8 => { exit := .exn, trace := [], reg := r }
  | .rawText s => legacyLoginStep r cid now msgId s
  | .json j =>
    match j with
    | .obj fields =>
      let token := objGetD fields "token" (.str "")
      match objGetD fields "device_id" (.str cid) with
      | .str device_id =>
        let is_admin :=
          startswith device_id "admin_" || isStrEq token "admin_token"
        let authenticated :=
          if is_admin then isStrEq token "admin_token"
          else isStrEq token "your_auth_token_here"
        let status :=
          if authenticated then HYPER_TCP_STATUS_SUCCESS
          else HYPER_TCP_STATUS_INVALID_TOKEN
        match lookupClient r.clients cid with
        | none => { exit := .exn, trace := [], reg := r }
        | some _ =>
          let clients1 := setClient r.clients cid (fun i =>
            { i with authenticated := authenticated, is_admin := is_admin })
          let resp : Effect :=
            .sendSelf ⟨HYPER_TCP_CMD_RESPONSE, msgId, .statusByte status⟩
          if authenticated then
            let clients2 := setClient clients1 cid (fun i =>
              { i with device_id := some device_id })
            if is_admin then
              { exit := .cont,
                trace := [.sendSelf (welcomeFrame cid now), .sendInitialStatus,
                          resp],
                reg := { r with clients := clients2,
                                admin_clients := adminAdd r.admin_clients cid } }
            else
              { exit := .cont,
                trace := [.sendSelf (welcomeFrame cid now),
                          .adminNotify (device_connected_event device_id cid now),
                          resp],
                reg := { r with clients := clients2,
                                device_connections :=
                                  dcAppend r.device_connections device_id cid } }
          else
            { exit := .brk, trace := [resp],
              reg := { r with clients := clients1 } }
      | _ => { exit := .exn, trace := [], reg := r }
    | _ => { exit := .exn, trace := [], reg := r }

/-- The JSON_MESSAGE branch (lines 262–296).  The registry `authenticated`
flag gates the branch (`break` otherwise); only `json.JSONDecodeError` is
caught, so a non-object envelope or a non-object `payload` field raises —
the latter only after `route_message` already ran. -/
def jsonMessageStep (r : Registry) (cid : String) (now msgId : Nat)
    (pv : PayloadView) : StepResult :=
  match lookupClient r.clients cid with
  | none => { exit := .exn, trace := [], reg := r }
  | some info =>
    if info.authenticated then
      match pv with
      | .notUtf8 => { exit := .exn, trace := [], reg := r }
      | .rawText _ => { exit := .cont, trace := [], reg := r }
      | .json j =>
        match j with
        | .obj fields =>
          let target := objGet fields "targetId"
          let message_payload := objGetD fields "payload" (.obj [])
          let message := objInsert fields "from" (senderJson info.device_id)
          match route_message r.device_connections target message with
          | none => { exit := .exn, trace := [], reg := r }
          | some routeEffs =>
            match message_payload with
            | .obj pf =>
              let ack : Effect :=
                .sendSelf ⟨HYPER_TCP_CMD_RESPONSE, msgId, .empty⟩
              let tr :=
                if isStrEq (objGetD pf "command" .null) "ping" then
                  routeEffs ++ [.sendSelf (pongFrame pf now), ack]
                else routeEffs ++ [ack]
              { exit := .cont, trace := tr, reg := r }
            | _ => { exit := .exn, trace := routeEffs, reg := r }
        | _ => { exit := .exn, trace := [], reg := r }
    else { exit := .brk, trace := [], reg := r }

/-- The BROADCAST branch (lines 298–321): same auth gate; `message["from"] =
…` raises on a non-object envelope before any effect. -/
def broadcastStep (r : Registry) (cid : String) (msgId : Nat)
    (pv : PayloadView) : StepResult :=
  match lookupClient r.clients cid with
  | none => { exit := .exn, trace := [], reg := r }
  | some info =>
    if info.authenticated then
      match pv with
      | .notUtf8 => { exit := .exn, trace := [], reg := r }
      | .rawText _ => { exit := .cont, trace := [], reg := r }
      | .json j =>
        match j with
        | .obj fields =>
          let message := objInsert fields "from" (senderJson info.device_id)
          { exit := .cont,
            trace := [.broadcastMsg message,
                      .sendSelf ⟨HYPER_TCP_CMD_RESPONSE, msgId, .empty⟩],
            reg := r }
        | _ => { exit := .exn, trace := [], reg := r }
    else { exit := .brk, trace := [], reg := r }

/-- One iteration of the read loop of `handle_client` for a frame with
header type `ty`, message id `msgId`, and payload `pv`, on connection
`cid`.  `now` abstracts `time.time()`. -/
def handleClientFrame (r : Registry) (cid : String) (now ty msgId : Nat)
    (pv : PayloadView) : StepResult :=
  if ty = HYPER_TCP_CMD_LOGIN then loginStep r cid now msgId pv
  else if ty = HYPER_TCP_CMD_PING then
    { exit := .cont,
      trace := [.sendSelf ⟨HYPER_TCP_CMD_RESPONSE, msgId, .empty⟩], reg := r }
  else if ty = HYPER_TCP_CMD_JSON_MESSAGE then jsonMessageStep r cid now msgId pv
  else if ty = HYPER_TCP_CMD_BROADCAST then broadcastStep r cid msgId pv
  else if ty = HYPER_TCP_CMD_RESPONSE then
    { exit := .cont, trace := [], reg := r }
  else
    { exit := .cont,
      trace := [.sendSelf ⟨HYPER_TCP_CMD_RESPONSE, msgId, .statusByte 2⟩],
      reg := r }

/-- The registry after the step, accounting for the `finally` block of
`handle_client`: if the loop ended (`break` or exception), the cleanup
runs. -/
def sessionAfter (s : StepResult) (cid : String) : Registry :=
  match s.exit with
  | .cont => s.reg
  | _ => cleanup_client_connection s.reg cid

/-- Frames carried by the `sendSelf` effects of a trace, in order. -/
def framesOf (tr : List Effect) : List OutFrame :=
  tr.filterMap (fun e =>
    match e with
    | .sendSelf f => some f
    | _ => none)

/-- Frames the step wrote to the handling connection's own socket, in
order. -/
def sentFrames (s : StepResult) : List OutFrame :=
  framesOf s.trace

/-! ## Demonstration registries used by concrete witnesses -/

/-- A registry holding one authenticated non-admin client. -/
def demoRegAuth : Registry :=
  ⟨[("c1", ⟨true, some "devA", false⟩)], [("devA", ["c1"])], []⟩

/-- A registry holding one freshly registered, unauthenticated client. -/
def demoRegUnauth : Registry := ⟨[("c1", freshInfo)], [], []⟩

/-! ## Supporting lemmas -/

theorem lookup_removeKey_self (cs : List (String × ClientInfo)) (cid : String) :
    lookupClient (removeKey cs cid) cid = none := by
  induction cs with
  | nil => rfl
  | cons p rest ih =>
    obtain ⟨k, v⟩ := p
    by_cases h : k = cid
    · rw [removeKey, if_pos h]; exact ih
    · rw [removeKey, if_neg h, lookupClient, if_neg h]; exact ih

theorem cleanup_clients_eq (r : Registry) (cid : String) (info : ClientInfo)
    (h : lookupClient r.clients cid = some info) (hc : cid ≠ "") :
    (cleanup_client_connection r cid).clients = removeKey r.clients cid := by
  unfold cleanup_client_connection
  rw [if_neg hc, h]
  repeat' split
  all_goals simp_all

theorem cleanup_of_lookup_none (r : Registry) (cid : String)
    (h : lookupClient r.clients cid = none) :
    cleanup_client_connection r cid = r := by
  by_cases hc : cid = "" <;> simp [cleanup_client_connection, hc, h]

/-! ## Claims -/

/-- C5: decoding the 5-byte big-endian header produced by encoding
`(T, M, L)` with `T ∈ {0, 6, 29, 30, 41, 50}`, `M ∈ [0, 65535]`,
`L ∈ [0, 65535]` yields exactly `(T, M, L)`. -/
theorem c5_header_roundtrip (t m l : Nat)
    (ht : t ∈ [0, 6, 29, 30, 41, 50]) (hm : m ≤ 65535) (hl : l ≤ 65535) :
    (HyperTCPHeader.pack t m l).bind HyperTCPHeader.unpack = some (t, m, l) := by
  have ht' : t < 256 := by
    simp only [List.mem_cons, List.not_mem_nil, or_false] at ht
    rcases ht with rfl | rfl | rfl | rfl | rfl | rfl <;> norm_num
  have hm' : m < 65536 := by omega
  have hl' : l < 65536 := by omega
  have hp : HyperTCPHeader.pack t m l
      = some [t, m / 256, m % 256, l / 256, l % 256] := by
    unfold HyperTCPHeader.pack
    rw [if_pos ⟨ht', hm', hl'⟩]
  rw [hp]
  show HyperTCPHeader.unpack [t, m / 256, m % 256, l / 256, l % 256] = some (t, m, l)
  simp only [HyperTCPHeader.unpack, Option.some.injEq, Prod.mk.injEq]
  refine ⟨trivial, ?_, ?_⟩ <;> omega

/-- Witness for C5 at the concrete header `(29, 1, 42)`. -/
theorem c5_header_roundtrip_witness :
    (HyperTCPHeader.pack 29 1 42).bind HyperTCPHeader.unpack = some (29, 1, 42) :=
  c5_header_roundtrip 29 1 42 (by decide) (by decide) (by decide)

/-- C6: a frame of unknown type received on an authenticated connection is
answered by a RESPONSE echoing its MsgId with the single payload byte 2
(INVALID_COMMAND), the registry is untouched, and the session keeps
reading. -/
theorem c6_unknown_type (r : Registry) (cid : String) (now ty msgId : Nat)
    (pv : PayloadView) (info : ClientInfo)
    (hlook : lookupClient r.clients cid = some info)
    (hauth : info.authenticated = true)
    (h0 : ty ≠ HYPER_TCP_CMD_RESPONSE) (h6 : ty ≠ HYPER_TCP_CMD_PING)
    (h29 : ty ≠ HYPER_TCP_CMD_LOGIN) (h30 : ty ≠ HYPER_TCP_CMD_JSON_MESSAGE)
    (h50 : ty ≠ HYPER_TCP_CMD_BROADCAST) :
    handleClientFrame r cid now ty msgId pv =
      ⟨.cont, [.sendSelf ⟨HYPER_TCP_CMD_RESPONSE, msgId, .statusByte 2⟩], r⟩ := by
  simp [handleClientFrame, h0, h6, h29, h30, h50]

/-- Witness for C6: type 99 on an authenticated connection. -/
theorem c6_unknown_type_witness :
    handleClientFrame demoRegAuth "c1" 0 99 7 (.rawText "") =
      ⟨.cont, [.sendSelf ⟨HYPER_TCP_CMD_RESPONSE, 7, .statusByte 2⟩], demoRegAuth⟩ :=
  c6_unknown_type demoRegAuth "c1" 0 99 7 (.rawText "")
    ⟨true, some "devA", false⟩ (by decide) rfl
    (by decide) (by decide) (by decide) (by decide) (by decide)

/-- C7: on an authenticated connection, a JSON_MESSAGE or BROADCAST whose
payload text does not parse as JSON is dropped — no effects, no ack, the
registry is unchanged and the session keeps reading; a LOGIN payload that
does not parse as JSON instead takes the legacy raw-token path. -/
theorem c7_parse_error (r : Registry) (cid : String) (now msgId : Nat)
    (s : String) (info : ClientInfo)
    (hlook : lookupClient r.clients cid = some info)
    (hauth : info.authenticated = true) :
    handleClientFrame r cid now HYPER_TCP_CMD_JSON_MESSAGE msgId (.rawText s) =
      ⟨.cont, [], r⟩ ∧
    handleClientFrame r cid now HYPER_TCP_CMD_BROADCAST msgId (.rawText s) =
      ⟨.cont, [], r⟩ ∧
    handleClientFrame r cid now HYPER_TCP_CMD_LOGIN msgId (.rawText s) =
      legacyLoginStep r cid now msgId s := by
  refine ⟨?_, ?_, ?_⟩ <;>
    simp [handleClientFrame, jsonMessageStep, broadcastStep, loginStep,
      hlook, hauth, HYPER_TCP_CMD_JSON_MESSAGE, HYPER_TCP_CMD_BROADCAST,
      HYPER_TCP_CMD_LOGIN, HYPER_TCP_CMD_PING, HYPER_TCP_CMD_RESPONSE]

/-- Witness for C7 on a concrete authenticated registry and the non-JSON
text `not json`. -/
theorem c7_parse_error_witness :
    handleClientFrame demoRegAuth "c1" 0 HYPER_TCP_CMD_JSON_MESSAGE 3
        (.rawText "not json") = ⟨.cont, [], demoRegAuth⟩ ∧
    handleClientFrame demoRegAuth "c1" 0 HYPER_TCP_CMD_BROADCAST 3
        (.rawText "not json") = ⟨.cont, [], demoRegAuth⟩ ∧
    handleClientFrame demoRegAuth "c1" 0 HYPER_TCP_CMD_LOGIN 3
        (.rawText "not json") = legacyLoginStep demoRegAuth "c1" 0 3 "not json" :=
  c7_parse_error demoRegAuth "c1" 0 3 "not json"
    ⟨true, some "devA", false⟩ (by decide) rfl

/-- C9: a LOGIN whose payload parses as JSON but is not a JSON object takes
neither login path: the handler raises with no RESPONSE sent and the
`finally` block cleans the connection up. -/
theorem c9_login_non_object (r : Registry) (cid : String) (now msgId : Nat)
    (j : Json) (hobj : isObj j = false) :
    handleClientFrame r cid now HYPER_TCP_CMD_LOGIN msgId (.json j) =
      ⟨.exn, [], r⟩ ∧
    sessionAfter (handleClientFrame r cid now HYPER_TCP_CMD_LOGIN msgId (.json j))
        cid = cleanup_client_connection r cid := by
  have h : handleClientFrame r cid now HYPER_TCP_CMD_LOGIN msgId (.json j) =
      ⟨.exn, [], r⟩ := by
    cases j <;> simp_all [handleClientFrame, loginStep, isObj]
  exact ⟨h, by rw [h]; rfl⟩

/-- Witness for C9 with the JSON string payload `"x"`. -/
theorem c9_login_non_object_witness :
    handleClientFrame demoRegUnauth "c1" 0 HYPER_TCP_CMD_LOGIN 4
        (.json (.str "x")) = ⟨.exn, [], demoRegUnauth⟩ ∧
    sessionAfter (handleClientFrame demoRegUnauth "c1" 0 HYPER_TCP_CMD_LOGIN 4
        (.json (.str "x"))) "c1" = cleanup_client_connection demoRegUnauth "c1" :=
  c9_login_non_object demoRegUnauth "c1" 0 4 (.str "x") rfl

/-- C8: running the registry cleanup twice for the same connection id gives
the same connection table, device-group mapping and admin set as running it
once. -/
theorem c8_cleanup_idempotent (r : Registry) (cid : String) :
    cleanup_client_connection (cleanup_client_connection r cid) cid
      = cleanup_client_connection r cid := by
  cases h : lookupClient r.clients cid with
  | none => rw [cleanup_of_lookup_none r cid h, cleanup_of_lookup_none r cid h]
  | some info =>
    by_cases hc : cid = ""
    · simp [cleanup_client_connection, hc]
    · have h2 : lookupClient (cleanup_client_connection r cid).clients cid = none := by
        rw [cleanup_clients_eq r cid info h hc]
        exact lookup_removeKey_self _ _
      exact cleanup_of_lookup_none _ _ h2

/-- C1 counterexample: a PING received before any successful LOGIN does not
terminate the connection — the loop continues (and the server even answers
it), refuting the claim that any non-LOGIN frame in UNAUTH closes the
session. -/
theorem c1_counterexample :
    (handleClientFrame demoRegUnauth "c1" 0 HYPER_TCP_CMD_PING 5
        (.rawText "")).exit = LoopExit.cont := by
  decide

/-- C1 (amended): while unauthenticated, among non-LOGIN frames only
JSON_MESSAGE and BROADCAST close the connection (silently, with no reply);
a PING is answered with an empty RESPONSE, a RESPONSE frame is ignored,
and an unknown-type frame is answered with INVALID_COMMAND — in each of
those cases the session keeps reading and the registry is unchanged. -/
theorem c1_unauth_behaviour (r : Registry) (cid : String) (now ty msgId : Nat)
    (pv : PayloadView) (info : ClientInfo)
    (hlook : lookupClient r.clients cid = some info)
    (hauth : info.authenticated = false) :
    ((ty = HYPER_TCP_CMD_JSON_MESSAGE ∨ ty = HYPER_TCP_CMD_BROADCAST) →
       handleClientFrame r cid now ty msgId pv = ⟨.brk, [], r⟩) ∧
    (ty = HYPER_TCP_CMD_PING →
       handleClientFrame r cid now ty msgId pv =
         ⟨.cont, [.sendSelf ⟨HYPER_TCP_CMD_RESPONSE, msgId, .empty⟩], r⟩) ∧
    (ty = HYPER_TCP_CMD_RESPONSE →
       handleClientFrame r cid now ty msgId pv = ⟨.cont, [], r⟩) ∧
    (ty ≠ HYPER_TCP_CMD_RESPONSE → ty ≠ HYPER_TCP_CMD_PING →
     ty ≠ HYPER_TCP_CMD_LOGIN → ty ≠ HYPER_TCP_CMD_JSON_MESSAGE →
     ty ≠ HYPER_TCP_CMD_BROADCAST →
       handleClientFrame r cid now ty msgId pv =
         ⟨.cont, [.sendSelf ⟨HYPER_TCP_CMD_RESPONSE, msgId, .statusByte 2⟩], r⟩) := by
  refine ⟨?_, ?_, ?_, ?_⟩
  · rintro (rfl | rfl) <;>
      simp [handleClientFrame, jsonMessageStep, broadcastStep, hlook, hauth,
        HYPER_TCP_CMD_JSON_MESSAGE, HYPER_TCP_CMD_BROADCAST, HYPER_TCP_CMD_LOGIN,
        HYPER_TCP_CMD_PING]
  · rintro rfl
    simp [handleClientFrame, HYPER_TCP_CMD_PING, HYPER_TCP_CMD_LOGIN]
  · rintro rfl
    simp [handleClientFrame, HYPER_TCP_CMD_RESPONSE, HYPER_TCP_CMD_LOGIN,
      HYPER_TCP_CMD_PING, HYPER_TCP_CMD_JSON_MESSAGE, HYPER_TCP_CMD_BROADCAST]
  · intro h0 h6 h29 h30 h50
    simp [handleClientFrame, h0, h6, h29, h30, h50]

/-- Witness for the amended C1 on a concrete unauthenticated registry. -/
theorem c1_unauth_behaviour_witness :
    handleClientFrame demoRegUnauth "c1" 0 HYPER_TCP_CMD_JSON_MESSAGE 2
        (.rawText "x") = ⟨.brk, [], demoRegUnauth⟩ ∧
    handleClientFrame demoRegUnauth "c1" 0 HYPER_TCP_CMD_PING 2 (.rawText "x") =
      ⟨.cont, [.sendSelf ⟨HYPER_TCP_CMD_RESPONSE, 2, .empty⟩], demoRegUnauth⟩ :=
  ⟨(c1_unauth_behaviour demoRegUnauth "c1" 0 HYPER_TCP_CMD_JSON_MESSAGE 2
      (.rawText "x") freshInfo (by decide) rfl).1 (Or.inl rfl),
   (c1_unauth_behaviour demoRegUnauth "c1" 0 HYPER_TCP_CMD_PING 2
      (.rawText "x") freshInfo (by decide) rfl).2.1 rfl⟩

/-- C3 (code-bug evidence): at the failing input — a JSON_MESSAGE whose
payload is `{"command":"ping","nonce":42}` — `pong_data.update(ping_payload)`
lets the original `"command":"ping"` overwrite the `"command":"pong"` field,
so the emitted pong body carries `command = "ping"`, not `"pong"`; the
`type` field stays `"pong"` and the pong JSON_MESSAGE plus the RESPONSE ack
are both sent. -/
theorem c3_pong_command_clobbered :
    objGet (pong_data [("command", .str "ping"), ("nonce", .num 42)] 1000)
        "command" = some (.str "ping") ∧
    objGet (pong_data [("command", .str "ping"), ("nonce", .num 42)] 1000)
        "type" = some (.str "pong") ∧
    sentFrames (handleClientFrame demoRegAuth "c1" 1000 HYPER_TCP_CMD_JSON_MESSAGE 9
        (.json (.obj [("targetId", .str "server"),
                      ("payload", .obj [("command", .str "ping"),
                                        ("nonce", .num 42)])])))
      = [pongFrame [("command", .str "ping"), ("nonce", .num 42)] 1000,
         ⟨HYPER_TCP_CMD_RESPONSE, 9, .empty⟩] :=
  ⟨rfl, rfl, rfl⟩

/-- C4 counterexample: for a successful device LOGIN with a JSON payload the
first frame the server writes on the connection is the welcome JSON_MESSAGE
(type 30), not the RESPONSE — refuting the claimed RESPONSE-first order. -/
theorem c4_counterexample :
    ((sentFrames (handleClientFrame demoRegUnauth "c1" 5 HYPER_TCP_CMD_LOGIN 1
          (.json (.obj [("token", .str "your_auth_token_here"),
                        ("device_id", .str "sensor_device_001")])))).map
          OutFrame.type).head? ≠ some HYPER_TCP_CMD_RESPONSE := by
  decide

/-- C4 (amended): on a successful non-admin LOGIN the JSON path emits the
welcome JSON_MESSAGE, then the `deviceConnected` admin notification, and
only then the RESPONSE(SUCCESS) echoing the LOGIN MsgId, while registering
the connection in the device group; the legacy raw-token path emits the
RESPONSE(SUCCESS) first and the welcome and notification after it. -/
theorem c4_login_order (r : Registry) (cid dev : String) (now msgId : Nat)
    (fields : List (String × Json)) (info : ClientInfo)
    (hlook : lookupClient r.clients cid = some info)
    (htok : objGetD fields "token" (.str "") = .str "your_auth_token_here")
    (hdev : objGetD fields "device_id" (.str cid) = .str dev)
    (hadm : startswith dev "admin_" = false) :
    (handleClientFrame r cid now HYPER_TCP_CMD_LOGIN msgId (.json (.obj fields))).trace
      = [.sendSelf (welcomeFrame cid now),
         .adminNotify (device_connected_event dev cid now),
         .sendSelf ⟨HYPER_TCP_CMD_RESPONSE, msgId,
                    .statusByte HYPER_TCP_STATUS_SUCCESS⟩] ∧
    (handleClientFrame r cid now HYPER_TCP_CMD_LOGIN msgId
        (.json (.obj fields))).reg.device_connections
      = dcAppend r.device_connections dev cid ∧
    (handleClientFrame r cid now HYPER_TCP_CMD_LOGIN msgId
        (.rawText "your_auth_token_here")).trace
      = [.sendSelf ⟨HYPER_TCP_CMD_RESPONSE, msgId,
                    .statusByte HYPER_TCP_STATUS_SUCCESS⟩,
         .sendSelf (welcomeFrame cid now),
         .adminNotify (device_connected_event cid cid now)] := by
  have hne1 : ("your_auth_token_here" : String) ≠ "admin_token" := by decide
  refine ⟨?_, ?_, ?_⟩ <;>
    simp [handleClientFrame, loginStep, legacyLoginStep, htok, hdev, hadm,
      hlook, isStrEq, hne1, HYPER_TCP_CMD_LOGIN]

/-- Witness for the amended C4 at a concrete registry and login payload. -/
theorem c4_login_order_witness :
    (handleClientFrame demoRegUnauth "c1" 5 HYPER_TCP_CMD_LOGIN 1
        (.json (.obj [("token", .str "your_auth_token_here"),
                      ("device_id", .str "sensor_device_001")]))).trace
      = [.sendSelf (welcomeFrame "c1" 5),
         .adminNotify (device_connected_event "sensor_device_001" "c1" 5),
         .sendSelf ⟨HYPER_TCP_CMD_RESPONSE, 1,
                    .statusByte HYPER_TCP_STATUS_SUCCESS⟩] ∧
    (handleClientFrame demoRegUnauth "c1" 5 HYPER_TCP_CMD_LOGIN 1
        (.json (.obj [("token", .str "your_auth_token_here"),
                      ("device_id", .str "sensor_device_001")]))).reg.device_connections
      = dcAppend demoRegUnauth.device_connections "sensor_device_001" "c1" ∧
    (handleClientFrame demoRegUnauth "c1" 5 HYPER_TCP_CMD_LOGIN 1
        (.rawText "your_auth_token_here")).trace
      = [.sendSelf ⟨HYPER_TCP_CMD_RESPONSE, 1,
                    .statusByte HYPER_TCP_STATUS_SUCCESS⟩,
         .sendSelf (welcomeFrame "c1" 5),
         .adminNotify (device_connected_event "c1" "c1" 5)] :=
  c4_login_order demoRegUnauth "c1" "sensor_device_001" 5 1
    [("token", .str "your_auth_token_here"),
     ("device_id", .str "sensor_device_001")]
    freshInfo (by decide) rfl rfl (by decide)

/-! ## Registry operation model for the reachability claims

The registry changes in exactly three places in the source: a connection is
registered with a fresh id when accepted (lines 100–111), a frame is handled
by the read loop (with the `finally` cleanup when the loop ends), and a
connection is torn down.  Connection ids come from a monotone counter, so a
registered id is fresh: absent from the table and from every device group. -/

inductive Op where
  | register (cid : String)
  | frame (cid : String) (now ty msgId : Nat) (pv : PayloadView)
  | disconnect (cid : String)

def emptyRegistry : Registry := ⟨[], [], []⟩

def applyOp (r : Registry) : Op → Registry
  | .register cid => { r with clients := r.clients ++ [(cid, freshInfo)] }
  | .frame cid now ty msgId pv =>
    sessionAfter (handleClientFrame r cid now ty msgId pv) cid
  | .disconnect cid => cleanup_client_connection r cid

/-- Registry states reachable from the empty registry by any sequence of
operations (fresh-id registration, arbitrary frames, disconnects). -/
inductive Reach : Registry → Prop where
  | empty : Reach emptyRegistry
  | register (r : Registry) (cid : String) (hr : Reach r)
      (hfresh : lookupClient r.clients cid = none)
      (hg : gcount r.device_connections cid = 0) :
      Reach (applyOp r (.register cid))
  | frame (r : Registry) (cid : String) (now ty msgId : Nat)
      (pv : PayloadView) (hr : Reach r) :
      Reach (applyOp r (.frame cid now ty msgId pv))
  | disconnect (r : Registry) (cid : String) (hr : Reach r) :
      Reach (applyOp r (.disconnect cid))

/-- Reachability restricted to sessions that never send a LOGIN on an
already-authenticated connection (each connection authenticates at most
once). -/
inductive ReachSL : Registry → Prop where
  | empty : ReachSL emptyRegistry
  | register (r : Registry) (cid : String) (hr : ReachSL r)
      (hfresh : lookupClient r.clients cid = none)
      (hg : gcount r.device_connections cid = 0) :
      ReachSL (applyOp r (.register cid))
  | frame (r : Registry) (cid : String) (now ty msgId : Nat)
      (pv : PayloadView) (hr : ReachSL r)
      (hlogin : ty = HYPER_TCP_CMD_LOGIN →
        ∀ info, lookupClient r.clients cid = some info →
          info.authenticated = false) :
      ReachSL (applyOp r (.frame cid now ty msgId pv))
  | disconnect (r : Registry) (cid : String) (hr : ReachSL r) :
      ReachSL (applyOp r (.disconnect cid))

/-- The claimed table invariant: every connection id visible in the
connection table is in the admin set and no device group, or in no admin
set and exactly one device group slot, or — when unauthenticated — in
neither. -/
def claimInvariant (r : Registry) : Prop :=
  ∀ cid info, lookupClient r.clients cid = some info →
    (info.authenticated = true →
      (cid ∈ r.admin_clients ∧ gcount r.device_connections cid = 0) ∨
      (cid ∉ r.admin_clients ∧ gcount r.device_connections cid = 1)) ∧
    (info.authenticated = false →
      cid ∉ r.admin_clients ∧ gcount r.device_connections cid = 0)

/-- The state reached by registering one connection and having it send two
successful device LOGIN frames. -/
def c2BadState : Registry :=
  applyOp (applyOp (applyOp emptyRegistry (.register "c1"))
      (.frame "c1" 0 HYPER_TCP_CMD_LOGIN 1 (.rawText "your_auth_token_here")))
    (.frame "c1" 0 HYPER_TCP_CMD_LOGIN 2 (.rawText "your_auth_token_here"))

/-- C2 counterexample: after a second successful LOGIN on the same
connection the connection id occupies two device-group slots
(`gcount = 2`), so the claimed invariant fails on a reachable state. -/
theorem c2_counterexample : Reach c2BadState ∧ ¬ claimInvariant c2BadState := by
  constructor
  · exact Reach.frame _ "c1" 0 HYPER_TCP_CMD_LOGIN 2 (.rawText "your_auth_token_here")
      (Reach.frame _ "c1" 0 HYPER_TCP_CMD_LOGIN 1 (.rawText "your_auth_token_here")
        (Reach.register emptyRegistry "c1" Reach.empty (by decide) (by decide)))
  · intro h
    have h2 := (h "c1" ⟨true, some "c1", false⟩ (by decide)).1 rfl
    rcases h2 with ⟨h3, _⟩ | ⟨_, h4⟩
    · revert h3; decide
    · revert h4; decide

/-! ## Lemmas about the registry primitives -/

theorem lookup_setClient_self (cs : List (String × ClientInfo)) (cid : String)
    (f : ClientInfo → ClientInfo) :
    lookupClient (setClient cs cid f) cid = (lookupClient cs cid).map f := by
  induction cs with
  | nil => rfl
  | cons p rest ih =>
    obtain ⟨k, v⟩ := p
    by_cases h : k = cid
    · rw [setClient, if_pos h, lookupClient, if_pos h, lookupClient, if_pos h]
      rfl
    · rw [setClient, if_neg h, lookupClient, if_neg h, lookupClient, if_neg h]
      exact ih

theorem lookup_setClient_ne (cs : List (String × ClientInfo)) (cid cid' : String)
    (f : ClientInfo → ClientInfo) (h : cid' ≠ cid) :
    lookupClient (setClient cs cid f) cid' = lookupClient cs cid' := by
  induction cs with
  | nil => rfl
  | cons p rest ih =>
    obtain ⟨k, v⟩ := p
    by_cases h1 : k = cid
    · have h2 : k ≠ cid' := by rw [h1]; exact fun hc => h hc.symm
      rw [setClient, if_pos h1, lookupClient, if_neg h2, lookupClient,
        if_neg h2]
      exact ih
    · rw [setClient, if_neg h1, lookupClient, lookupClient]
      by_cases h2 : k = cid' <;> simp only [h2, if_true, if_false, ih]

theorem lookup_append_of_some (cs l : List (String × ClientInfo))
    (cid : String) (v : ClientInfo) (h : lookupClient cs cid = some v) :
    lookupClient (cs ++ l) cid = some v := by
  induction cs with
  | nil => simp [lookupClient] at h
  | cons p rest ih =>
    by_cases h1 : p.1 = cid <;> simp [lookupClient, h1] at h ⊢ <;> simp_all

theorem lookup_append_sing_self (cs : List (String × ClientInfo))
    (cid : String) (i : ClientInfo) (h : lookupClient cs cid = none) :
    lookupClient (cs ++ [(cid, i)]) cid = some i := by
  induction cs with
  | nil => simp [lookupClient]
  | cons p rest ih =>
    by_cases h1 : p.1 = cid <;> simp [lookupClient, h1] at h ⊢ <;> simp_all

theorem lookup_append_sing_ne (cs : List (String × ClientInfo))
    (cid cid' : String) (i : ClientInfo) (h : cid ≠ cid') :
    lookupClient (cs ++ [(cid, i)]) cid' = lookupClient cs cid' := by
  induction cs with
  | nil => simp [lookupClient, h]
  | cons p rest ih =>
    by_cases h1 : p.1 = cid' <;> simp [lookupClient, h1] <;> exact ih

theorem lookup_removeKey_ne (cs : List (String × ClientInfo)) (cid cid' : String)
    (h : cid' ≠ cid) :
    lookupClient (removeKey cs cid) cid' = lookupClient cs cid' := by
  induction cs with
  | nil => rfl
  | cons p rest ih =>
    obtain ⟨k, v⟩ := p
    by_cases h1 : k = cid
    · have h2 : k ≠ cid' := by rw [h1]; exact fun hc => h hc.symm
      rw [removeKey, if_pos h1, lookupClient, if_neg h2]
      exact ih
    · by_cases h2 : k = cid'
      · rw [removeKey, if_neg h1, lookupClient, if_pos h2, lookupClient,
          if_pos h2]
      · rw [removeKey, if_neg h1, lookupClient, if_neg h2, lookupClient,
          if_neg h2]
        exact ih

theorem mem_adminAdd (ac : List String) (cid a : String) :
    a ∈ adminAdd ac cid ↔ a ∈ ac ∨ a = cid := by
  unfold adminAdd
  by_cases h : cid ∈ ac
  · rw [if_pos h]
    constructor
    · exact Or.inl
    · rintro (ha | rfl)
      · exact ha
      · exact h
  · rw [if_neg h]
    simp [List.mem_append]

/-! ## Lemmas about `gcount`, `dcAppend`, `lookupDC` -/

theorem gcount_nil (cid : String) : gcount [] cid = 0 := rfl

theorem gcount_cons (p : String × List String) (dc : List (String × List String))
    (cid : String) : gcount (p :: dc) cid = p.2.count cid + gcount dc cid := by
  simp [gcount]

theorem gcount_eq_zero_iff (dc : List (String × List String)) (cid : String) :
    gcount dc cid = 0 ↔ ∀ p ∈ dc, cid ∉ p.2 := by
  induction dc with
  | nil => simp [gcount]
  | cons p rest ih =>
    rw [gcount_cons]
    simp only [Nat.add_eq_zero_iff, ih, List.mem_cons]
    constructor
    · rintro ⟨h1, h2⟩ q hq
      rcases hq with rfl | hq
      · exact List.count_eq_zero.1 h1
      · exact h2 q hq
    · intro h
      exact ⟨List.count_eq_zero.2 (h p (Or.inl rfl)),
        fun q hq => h q (Or.inr hq)⟩

theorem gcount_dcAppend_ne (dc : List (String × List String)) (d x y : String)
    (h : y ≠ x) : gcount (dcAppend dc d x) y = gcount dc y := by
  induction dc with
  | nil =>
    simp [dcAppend, gcount, List.count_cons, h]
  | cons p rest ih =>
    obtain ⟨k, v⟩ := p
    by_cases h1 : k = d
    · simp only [dcAppend, if_pos h1, gcount_cons]
      have hc : (v ++ [x]).count y = v.count y := by
        simp [List.count_append, List.count_cons, h]
      simp [hc]
    · simp only [dcAppend, if_neg h1, gcount_cons]
      rw [ih]

theorem gcount_dcAppend_self (dc : List (String × List String)) (d x : String) :
    gcount (dcAppend dc d x) x = gcount dc x + 1 := by
  induction dc with
  | nil =>
    have h1 : [x].count x = 1 := by simp
    simp [dcAppend, gcount, h1]
  | cons p rest ih =>
    obtain ⟨k, v⟩ := p
    by_cases h1 : k = d
    · simp only [dcAppend, if_pos h1, gcount_cons]
      have hc : (v ++ [x]).count x = v.count x + 1 := by
        simp [List.count_append]
      simp [hc]
      omega
    · simp only [dcAppend, if_neg h1, gcount_cons]
      rw [ih]
      omega

theorem mem_keys_dcAppend (dc : List (String × List String)) (d x a : String) :
    a ∈ (dcAppend dc d x).map Prod.fst ↔ a ∈ dc.map Prod.fst ∨ a = d := by
  induction dc with
  | nil => simp [dcAppend]
  | cons p rest ih =>
    obtain ⟨k, v⟩ := p
    by_cases h1 : k = d
    · subst h1
      simp only [dcAppend, if_pos rfl, if_true, List.map_cons, List.mem_cons]
      constructor
      · exact Or.inl
      · rintro ((h2 | h2) | rfl)
        · exact Or.inl h2
        · exact Or.inr h2
        · exact Or.inl rfl
    · simp only [dcAppend, if_neg h1, List.map_cons, List.mem_cons, ih]
      tauto

theorem dcAppend_keys_nodup (dc : List (String × List String)) (d x : String)
    (hnd : (dc.map Prod.fst).Nodup) :
    ((dcAppend dc d x).map Prod.fst).Nodup := by
  induction dc with
  | nil => simp [dcAppend]
  | cons p rest ih =>
    obtain ⟨k, v⟩ := p
    simp only [List.map_cons, List.nodup_cons] at hnd
    by_cases h1 : k = d
    · simp only [dcAppend, if_pos h1, List.map_cons, List.nodup_cons]
      exact ⟨hnd.1, hnd.2⟩
    · simp only [dcAppend, if_neg h1, List.map_cons, List.nodup_cons]
      constructor
      · intro hk
        rcases (mem_keys_dcAppend rest d x k).1 hk with hk2 | rfl
        · exact hnd.1 hk2
        · exact h1 rfl
      · exact ih hnd.2

theorem mem_dcAppend (dc : List (String × List String)) (d x : String)
    (p : String × List String) (y : String) :
    p ∈ dcAppend dc d x → y ∈ p.2 →
      (∃ q ∈ dc, q.1 = p.1 ∧ y ∈ q.2) ∨ (y = x ∧ p.1 = d) := by
  induction dc with
  | nil =>
    intro hp hy
    simp only [dcAppend, List.mem_singleton] at hp
    subst hp
    simp only [List.mem_singleton] at hy
    exact Or.inr ⟨hy, rfl⟩
  | cons q0 rest ih =>
    obtain ⟨k, v⟩ := q0
    intro hp hy
    by_cases h1 : k = d
    · simp only [dcAppend, if_pos h1] at hp
      rcases List.mem_cons.1 hp with rfl | hp2
      · simp only [List.mem_append, List.mem_singleton] at hy
        rcases hy with hy | rfl
        · exact Or.inl ⟨(k, v), List.mem_cons_self _ _, rfl, hy⟩
        · exact Or.inr ⟨rfl, h1⟩
      · exact Or.inl ⟨p, List.mem_cons_of_mem _ hp2, rfl, hy⟩
    · simp only [dcAppend, if_neg h1] at hp
      rcases List.mem_cons.1 hp with rfl | hp2
      · exact Or.inl ⟨(k, v), List.mem_cons_self _ _, rfl, hy⟩
      · rcases ih hp2 hy with ⟨q, hq, hq1, hq2⟩ | hr
        · exact Or.inl ⟨q, List.mem_cons_of_mem _ hq, hq1, hq2⟩
        · exact Or.inr hr

theorem mem_removeAdmin (ac : List String) (cid a : String) :
    a ∈ removeAdmin ac cid ↔ a ∈ ac ∧ a ≠ cid := by
  induction ac with
  | nil => simp [removeAdmin]
  | cons b rest ih =>
    by_cases h : b = cid
    · subst h
      rw [removeAdmin, if_pos rfl, ih]
      simp only [List.mem_cons]
      constructor
      · rintro ⟨hm, hne⟩
        exact ⟨Or.inr hm, hne⟩
      · rintro ⟨hm | hm, hne⟩
        · exact absurd hm hne
        · exact ⟨hm, hne⟩
    · rw [removeAdmin, if_neg h]
      simp only [List.mem_cons, ih]
      constructor
      · rintro (rfl | ⟨hm, hne⟩)
        · exact ⟨Or.inl rfl, h⟩
        · exact ⟨Or.inr hm, hne⟩
      · rintro ⟨rfl | hm, hne⟩
        · exact Or.inl rfl
        · exact Or.inr ⟨hm, hne⟩

theorem removeDCKey_eq_of_not_mem (dc : List (String × List String))
    (d : String) (h : d ∉ dc.map Prod.fst) : removeDCKey dc d = dc := by
  induction dc with
  | nil => rfl
  | cons p rest ih =>
    obtain ⟨k, v⟩ := p
    simp only [List.map_cons, List.mem_cons, not_or] at h
    rw [removeDCKey, if_neg (fun hc => h.1 hc.symm), ih h.2]

theorem replaceGroup_eq_of_not_mem (dc : List (String × List String))
    (d : String) (g : List String) (h : d ∉ dc.map Prod.fst) :
    replaceGroup dc d g = dc := by
  induction dc with
  | nil => rfl
  | cons p rest ih =>
    obtain ⟨k, v⟩ := p
    simp only [List.map_cons, List.mem_cons, not_or] at h
    rw [replaceGroup, if_neg (fun hc => h.1 hc.symm), ih h.2]

theorem mem_removeDCKey (dc : List (String × List String)) (d : String)
    (p : String × List String) (hp : p ∈ removeDCKey dc d) : p ∈ dc := by
  induction dc with
  | nil => cases hp
  | cons q rest ih =>
    obtain ⟨k, v⟩ := q
    by_cases h1 : k = d
    · rw [removeDCKey, if_pos h1] at hp
      exact List.mem_cons_of_mem _ (ih hp)
    · rw [removeDCKey, if_neg h1] at hp
      rcases List.mem_cons.1 hp with rfl | hp2
      · exact List.mem_cons_self _ _
      · exact List.mem_cons_of_mem _ (ih hp2)

theorem removeDCKey_keys_nodup (dc : List (String × List String)) (d : String)
    (hnd : (dc.map Prod.fst).Nodup) :
    ((removeDCKey dc d).map Prod.fst).Nodup := by
  induction dc with
  | nil => simp [removeDCKey]
  | cons q rest ih =>
    obtain ⟨k, v⟩ := q
    simp only [List.map_cons, List.nodup_cons] at hnd
    by_cases h1 : k = d
    · rw [removeDCKey, if_pos h1]
      exact ih hnd.2
    · rw [removeDCKey, if_neg h1]
      simp only [List.map_cons, List.nodup_cons]
      constructor
      · intro hk
        simp only [List.mem_map] at hk
        obtain ⟨q2, hq2, hq2k⟩ := hk
        exact hnd.1 (by
          rw [← hq2k]
          exact List.mem_map_of_mem Prod.fst (mem_removeDCKey rest d q2 hq2))
      · exact ih hnd.2

theorem keys_replaceGroup (dc : List (String × List String)) (d : String)
    (g : List String) :
    (replaceGroup dc d g).map Prod.fst = dc.map Prod.fst := by
  induction dc with
  | nil => rfl
  | cons p rest ih =>
    obtain ⟨k, v⟩ := p
    by_cases h1 : k = d
    · rw [replaceGroup, if_pos h1]
      simp [ih]
    · rw [replaceGroup, if_neg h1]
      simp [ih]

theorem mem_replaceGroup (dc : List (String × List String)) (d : String)
    (g : List String) (p : String × List String)
    (hp : p ∈ replaceGroup dc d g) :
    (p ∈ dc ∧ p.1 ≠ d) ∨ (p.1 = d ∧ p.2 = g) := by
  induction dc with
  | nil => cases hp
  | cons q rest ih =>
    obtain ⟨k, v⟩ := q
    by_cases h1 : k = d
    · rw [replaceGroup, if_pos h1] at hp
      rcases List.mem_cons.1 hp with rfl | hp2
      · exact Or.inr ⟨h1, rfl⟩
      · rcases ih hp2 with ⟨hm, hne⟩ | hr
        · exact Or.inl ⟨List.mem_cons_of_mem _ hm, hne⟩
        · exact Or.inr hr
    · rw [replaceGroup, if_neg h1] at hp
      rcases List.mem_cons.1 hp with rfl | hp2
      · exact Or.inl ⟨List.mem_cons_self _ _, h1⟩
      · rcases ih hp2 with ⟨hm, hne⟩ | hr
        · exact Or.inl ⟨List.mem_cons_of_mem _ hm, hne⟩
        · exact Or.inr hr

theorem gcount_removeDCKey (dc : List (String × List String)) (d x : String)
    (grp : List String) (hnd : (dc.map Prod.fst).Nodup)
    (hdc : lookupDC dc d = some grp) (hx : x ∉ grp) :
    gcount (removeDCKey dc d) x = gcount dc x := by
  induction dc with
  | nil => simp [lookupDC] at hdc
  | cons p rest ih =>
    obtain ⟨k, v⟩ := p
    simp only [List.map_cons, List.nodup_cons] at hnd
    by_cases h1 : k = d
    · subst h1
      simp only [lookupDC, if_pos rfl, if_true, Option.some.injEq] at hdc
      subst hdc
      rw [removeDCKey, if_pos rfl, removeDCKey_eq_of_not_mem rest k hnd.1,
        gcount_cons]
      have hc : (k, v).2.count x = 0 := List.count_eq_zero.2 hx
      rw [hc, Nat.zero_add]
    · simp only [lookupDC, if_neg h1] at hdc
      rw [removeDCKey, if_neg h1, gcount_cons, gcount_cons, ih hnd.2 hdc]

theorem gcount_replaceGroup (dc : List (String × List String)) (d x : String)
    (g grp : List String) (hnd : (dc.map Prod.fst).Nodup)
    (hdc : lookupDC dc d = some grp) (hcnt : g.count x = grp.count x) :
    gcount (replaceGroup dc d g) x = gcount dc x := by
  induction dc with
  | nil => simp [lookupDC] at hdc
  | cons p rest ih =>
    obtain ⟨k, v⟩ := p
    simp only [List.map_cons, List.nodup_cons] at hnd
    by_cases h1 : k = d
    · subst h1
      simp only [lookupDC, if_pos rfl, if_true, Option.some.injEq] at hdc
      subst hdc
      rw [replaceGroup, if_pos rfl, replaceGroup_eq_of_not_mem rest k g hnd.1,
        gcount_cons, gcount_cons]
      simp [hcnt]
    · simp only [lookupDC, if_neg h1] at hdc
      rw [replaceGroup, if_neg h1, gcount_cons, gcount_cons, ih hnd.2 hdc]

theorem eq_singleton_of_erase_nil (grp : List String) (cid : String)
    (hm : cid ∈ grp) (he : grp.erase cid = []) : grp = [cid] := by
  cases grp with
  | nil => cases hm
  | cons a rest =>
    cases rest with
    | nil =>
      simp only [List.mem_singleton] at hm
      rw [hm]
    | cons b rest2 =>
      have hlen := List.length_erase_of_mem hm
      rw [he] at hlen
      simp only [List.length_nil, List.length_cons] at hlen
      omega

theorem count_le_gcount (dc : List (String × List String)) (d : String)
    (grp : List String) (x : String) (hm : (d, grp) ∈ dc) :
    grp.count x ≤ gcount dc x := by
  induction dc with
  | nil => cases hm
  | cons p rest ih =>
    rw [gcount_cons]
    rcases List.mem_cons.1 hm with heq | hm2
    · rw [← heq]
      exact Nat.le_add_right _ _
    · exact le_trans (ih hm2) (Nat.le_add_left _ _)

theorem mem_of_lookupDC (dc : List (String × List String)) (d : String)
    (g : List String) (h : lookupDC dc d = some g) : (d, g) ∈ dc := by
  induction dc with
  | nil => simp [lookupDC] at h
  | cons p rest ih =>
    by_cases h1 : p.1 = d <;> simp [lookupDC, h1] at h
    · cases p
      simp_all
    · exact List.mem_cons_of_mem _ (ih h)

theorem lookupDC_none_not_mem (dc : List (String × List String)) (d : String)
    (h : lookupDC dc d = none) (g : List String) : (d, g) ∉ dc := by
  induction dc with
  | nil => simp
  | cons p rest ih =>
    by_cases h1 : p.1 = d <;> simp [lookupDC, h1] at h <;>
      simp only [List.mem_cons, not_or]
    exact ⟨fun hc => h1 (by rw [← hc]), ih h⟩

theorem lookupDC_eq_of_mem_nodup (dc : List (String × List String))
    (d : String) (g : List String) (hnd : (dc.map Prod.fst).Nodup)
    (hm : (d, g) ∈ dc) : lookupDC dc d = some g := by
  induction dc with
  | nil => simp at hm
  | cons p rest ih =>
    simp only [List.map_cons, List.nodup_cons] at hnd
    rcases List.mem_cons.1 hm with rfl | hm2
    · simp [lookupDC]
    · have h1 : p.1 ≠ d := by
        intro hc
        exact hnd.1 (by rw [hc]; exact List.mem_map_of_mem Prod.fst hm2)
      simp [lookupDC, h1]
      exact ih hnd.2 hm2

/-! ## The strengthened registry invariant

The induction invariant for the reachability claim: device-group keys are
unique; admin-set members are authenticated admins present in the table;
device-group members are either ghosts (ids of clients already removed from
the table — a client whose login supplied an empty device id is skipped by
the cleanup's `if device_id and …` guard and leaves such an entry behind)
or authenticated non-admin clients registered under that very device id;
and every client in the table sits where its flags say: admins in the admin
set and in no group, devices in exactly one group slot, unauthenticated
clients in neither. -/

structure RegInv (r : Registry) : Prop where
  dcNodup : (r.device_connections.map Prod.fst).Nodup
  adminSound : ∀ a ∈ r.admin_clients, ∃ info,
    lookupClient r.clients a = some info ∧ info.authenticated = true ∧
    info.is_admin = true
  groupSound : ∀ p ∈ r.device_connections, ∀ y ∈ p.2,
    lookupClient r.clients y = none ∨
    ∃ info, lookupClient r.clients y = some info ∧
      info.authenticated = true ∧ info.is_admin = false ∧
      info.device_id = some p.1
  authAdmin : ∀ cid info, lookupClient r.clients cid = some info →
    info.authenticated = true → info.is_admin = true →
    cid ∈ r.admin_clients ∧ gcount r.device_connections cid = 0
  authDevice : ∀ cid info, lookupClient r.clients cid = some info →
    info.authenticated = true → info.is_admin = false →
    cid ∉ r.admin_clients ∧ gcount r.device_connections cid = 1
  unauthFree : ∀ cid info, lookupClient r.clients cid = some info →
    info.authenticated = false →
    cid ∉ r.admin_clients ∧ gcount r.device_connections cid = 0

theorem regInv_empty : RegInv emptyRegistry := by
  constructor <;> simp [emptyRegistry, lookupClient, gcount]

theorem regInv_register (hi : RegInv r) (cid : String)
    (hfresh : lookupClient r.clients cid = none)
    (hg : gcount r.device_connections cid = 0) :
    RegInv { r with clients := r.clients ++ [(cid, freshInfo)] } := by
  have hadm : cid ∉ r.admin_clients := fun hmem => by
    obtain ⟨info, hl, _⟩ := hi.adminSound cid hmem
    rw [hfresh] at hl
    cases hl
  constructor
  · exact hi.dcNodup
  · intro a ha
    obtain ⟨info, hl, h2, h3⟩ := hi.adminSound a ha
    exact ⟨info, lookup_append_of_some _ _ _ _ hl, h2, h3⟩
  · intro p hp y hy
    have hyne : cid ≠ y := fun h => by
      subst h
      exact ((gcount_eq_zero_iff _ _).1 hg p hp) hy
    rcases hi.groupSound p hp y hy with hnone | ⟨info, hl, hx⟩
    · left
      rw [lookup_append_sing_ne _ _ _ _ hyne]
      exact hnone
    · right
      exact ⟨info, by rw [lookup_append_sing_ne _ _ _ _ hyne]; exact hl, hx⟩
  · intro c info hl hauth hadm2
    by_cases hcc : c = cid
    · subst hcc
      rw [lookup_append_sing_self _ _ _ hfresh] at hl
      cases Option.some.inj hl
      simp [freshInfo] at hauth
    · rw [lookup_append_sing_ne _ _ _ _ (fun h => hcc h.symm)] at hl
      exact hi.authAdmin c info hl hauth hadm2
  · intro c info hl hauth hadm2
    by_cases hcc : c = cid
    · subst hcc
      rw [lookup_append_sing_self _ _ _ hfresh] at hl
      cases Option.some.inj hl
      simp [freshInfo] at hauth
    · rw [lookup_append_sing_ne _ _ _ _ (fun h => hcc h.symm)] at hl
      exact hi.authDevice c info hl hauth hadm2
  · intro c info hl hun
    by_cases hcc : c = cid
    · subst hcc
      exact ⟨hadm, hg⟩
    · rw [lookup_append_sing_ne _ _ _ _ (fun h => hcc h.symm)] at hl
      exact hi.unauthFree c info hl hun

theorem regInv_removeClient (hi : RegInv r) (cid : String)
    (hfree : cid ∉ r.admin_clients) :
    RegInv { r with clients := removeKey r.clients cid } := by
  constructor
  · exact hi.dcNodup
  · intro a ha
    obtain ⟨info, hl2, h2, h3⟩ := hi.adminSound a ha
    have hane : a ≠ cid := fun h => hfree (h ▸ ha)
    exact ⟨info, by rw [lookup_removeKey_ne _ _ _ hane]; exact hl2, h2, h3⟩
  · intro p hp y hy
    by_cases hyc : y = cid
    · subst hyc
      left
      exact lookup_removeKey_self _ _
    · rcases hi.groupSound p hp y hy with hnone | ⟨info2, hl2, hx⟩
      · left
        rw [lookup_removeKey_ne _ _ _ hyc]
        exact hnone
      · right
        exact ⟨info2, by rw [lookup_removeKey_ne _ _ _ hyc]; exact hl2, hx⟩
  · intro c info2 hl2 hauth hadm2
    by_cases hcc : c = cid
    · subst hcc
      rw [lookup_removeKey_self] at hl2
      cases hl2
    · rw [lookup_removeKey_ne _ _ _ hcc] at hl2
      exact hi.authAdmin c info2 hl2 hauth hadm2
  · intro c info2 hl2 hauth hadm2
    by_cases hcc : c = cid
    · subst hcc
      rw [lookup_removeKey_self] at hl2
      cases hl2
    · rw [lookup_removeKey_ne _ _ _ hcc] at hl2
      exact hi.authDevice c info2 hl2 hauth hadm2
  · intro c info2 hl2 hun
    by_cases hcc : c = cid
    · subst hcc
      rw [lookup_removeKey_self] at hl2
      cases hl2
    · rw [lookup_removeKey_ne _ _ _ hcc] at hl2
      exact hi.unauthFree c info2 hl2 hun

theorem regInv_removeClientAdmin (hi : RegInv r) (cid : String) :
    RegInv { r with clients := removeKey r.clients cid,
                    admin_clients := removeAdmin r.admin_clients cid } := by
  constructor
  · exact hi.dcNodup
  · intro a ha
    rw [mem_removeAdmin] at ha
    obtain ⟨info, hl2, h2, h3⟩ := hi.adminSound a ha.1
    exact ⟨info, by rw [lookup_removeKey_ne _ _ _ ha.2]; exact hl2, h2, h3⟩
  · intro p hp y hy
    by_cases hyc : y = cid
    · subst hyc
      left
      exact lookup_removeKey_self _ _
    · rcases hi.groupSound p hp y hy with hnone | ⟨info2, hl2, hx⟩
      · left
        rw [lookup_removeKey_ne _ _ _ hyc]
        exact hnone
      · right
        exact ⟨info2, by rw [lookup_removeKey_ne _ _ _ hyc]; exact hl2, hx⟩
  · intro c info2 hl2 hauth hadm2
    by_cases hcc : c = cid
    · subst hcc
      rw [lookup_removeKey_self] at hl2
      cases hl2
    · rw [lookup_removeKey_ne _ _ _ hcc] at hl2
      obtain ⟨hmem, hzero⟩ := hi.authAdmin c info2 hl2 hauth hadm2
      exact ⟨(mem_removeAdmin _ _ _).2 ⟨hmem, hcc⟩, hzero⟩
  · intro c info2 hl2 hauth hadm2
    by_cases hcc : c = cid
    · subst hcc
      rw [lookup_removeKey_self] at hl2
      cases hl2
    · rw [lookup_removeKey_ne _ _ _ hcc] at hl2
      obtain ⟨hmem, hone⟩ := hi.authDevice c info2 hl2 hauth hadm2
      exact ⟨fun h => hmem ((mem_removeAdmin _ _ _).1 h).1, hone⟩
  · intro c info2 hl2 hun
    by_cases hcc : c = cid
    · subst hcc
      rw [lookup_removeKey_self] at hl2
      cases hl2
    · rw [lookup_removeKey_ne _ _ _ hcc] at hl2
      obtain ⟨hmem, hzero⟩ := hi.unauthFree c info2 hl2 hun
      exact ⟨fun h => hmem ((mem_removeAdmin _ _ _).1 h).1, hzero⟩

theorem regInv_removeClientDevice (hi : RegInv r) (cid : String)
    (info : ClientInfo) (d : String)
    (hl : lookupClient r.clients cid = some info)
    (hauth : info.authenticated = true) (hadm : info.is_admin = false)
    (grp : List String)
    (hdc : lookupDC r.device_connections d = some grp) (hmem : cid ∈ grp) :
    RegInv { r with clients := removeKey r.clients cid,
                    device_connections :=
                      if grp.erase cid = [] then
                        removeDCKey r.device_connections d
                      else
                        replaceGroup r.device_connections d (grp.erase cid) } := by
  obtain ⟨hfree, hone⟩ := hi.authDevice cid info hl hauth hadm
  have hmemdc := mem_of_lookupDC _ _ _ hdc
  constructor
  · by_cases he : grp.erase cid = [] <;> simp only [he, if_true, if_false]
    · exact removeDCKey_keys_nodup _ _ hi.dcNodup
    · rw [keys_replaceGroup]
      exact hi.dcNodup
  · intro a ha
    obtain ⟨info2, hl2, h2, h3⟩ := hi.adminSound a ha
    have hane : a ≠ cid := fun h => hfree (h ▸ ha)
    exact ⟨info2, by rw [lookup_removeKey_ne _ _ _ hane]; exact hl2, h2, h3⟩
  · intro p hp y hy
    by_cases hyc : y = cid
    · subst hyc
      left
      exact lookup_removeKey_self _ _
    · have horig : ∃ q ∈ r.device_connections, q.1 = p.1 ∧ y ∈ q.2 := by
        by_cases he : grp.erase cid = [] <;>
          simp only [he, if_true, if_false] at hp
        · exact ⟨p, mem_removeDCKey _ _ _ hp, rfl, hy⟩
        · rcases mem_replaceGroup _ _ _ _ hp with ⟨hpm, _⟩ | ⟨hpd, hpg⟩
          · exact ⟨p, hpm, rfl, hy⟩
          · rw [hpg] at hy
            exact ⟨(d, grp), hmemdc, by rw [hpd],
              List.mem_of_mem_erase hy⟩
      obtain ⟨q, hq, hq1, hq2⟩ := horig
      rcases hi.groupSound q hq y hq2 with hnone | ⟨info2, hl2, hx⟩
      · left
        rw [lookup_removeKey_ne _ _ _ hyc]
        exact hnone
      · right
        refine ⟨info2, by rw [lookup_removeKey_ne _ _ _ hyc]; exact hl2,
          hx.1, hx.2.1, ?_⟩
        rw [hx.2.2, hq1]
  · intro c info2 hl2 hauth2 hadm2
    by_cases hcc : c = cid
    · subst hcc
      rw [lookup_removeKey_self] at hl2
      cases hl2
    · rw [lookup_removeKey_ne _ _ _ hcc] at hl2
      obtain ⟨hmem2, hzero⟩ := hi.authAdmin c info2 hl2 hauth2 hadm2
      refine ⟨hmem2, ?_⟩
      by_cases he : grp.erase cid = [] <;> simp only [he, if_true, if_false]
      · rw [gcount_removeDCKey _ _ _ _ hi.dcNodup hdc
          ((gcount_eq_zero_iff _ _).1 hzero (d, grp) hmemdc)]
        exact hzero
      · rw [gcount_replaceGroup _ _ _ _ _ hi.dcNodup hdc
          (List.count_erase_of_ne hcc grp)]
        exact hzero
  · intro c info2 hl2 hauth2 hadm2
    by_cases hcc : c = cid
    · subst hcc
      rw [lookup_removeKey_self] at hl2
      cases hl2
    · rw [lookup_removeKey_ne _ _ _ hcc] at hl2
      obtain ⟨hmem2, hone2⟩ := hi.authDevice c info2 hl2 hauth2 hadm2
      refine ⟨hmem2, ?_⟩
      by_cases he : grp.erase cid = [] <;> simp only [he, if_true, if_false]
      · have hsing := eq_singleton_of_erase_nil grp cid hmem he
        have hcg : c ∉ grp := by
          rw [hsing]
          simp [hcc]
        rw [gcount_removeDCKey _ _ _ _ hi.dcNodup hdc hcg]
        exact hone2
      · rw [gcount_replaceGroup _ _ _ _ _ hi.dcNodup hdc
          (List.count_erase_of_ne hcc grp)]
        exact hone2
  · intro c info2 hl2 hun
    by_cases hcc : c = cid
    · subst hcc
      rw [lookup_removeKey_self] at hl2
      cases hl2
    · rw [lookup_removeKey_ne _ _ _ hcc] at hl2
      obtain ⟨hmem2, hzero⟩ := hi.unauthFree c info2 hl2 hun
      refine ⟨hmem2, ?_⟩
      by_cases he : grp.erase cid = [] <;> simp only [he, if_true, if_false]
      · rw [gcount_removeDCKey _ _ _ _ hi.dcNodup hdc
          ((gcount_eq_zero_iff _ _).1 hzero (d, grp) hmemdc)]
        exact hzero
      · rw [gcount_replaceGroup _ _ _ _ _ hi.dcNodup hdc
          (List.count_erase_of_ne hcc grp)]
        exact hzero

theorem regInv_cleanup (hi : RegInv r) (cid : String) :
    RegInv (cleanup_client_connection r cid) := by
  unfold cleanup_client_connection
  by_cases hc : cid = ""
  · rw [if_pos hc]
    exact hi
  rw [if_neg hc]
  cases hl : lookupClient r.clients cid with
  | none => exact hi
  | some info =>
    dsimp only
    have hfree : info.is_admin = false → cid ∉ r.admin_clients := by
      intro hadm
      cases hauth : info.authenticated with
      | true => exact (hi.authDevice cid info hl hauth hadm).1
      | false => exact (hi.unauthFree cid info hl hauth).1
    split
    · exact regInv_removeClientAdmin hi cid
    next hadm =>
      have hadm2 : info.is_admin = false := by
        cases h2 : info.is_admin
        · rfl
        · exact absurd h2 hadm
      split
      · exact regInv_removeClient hi cid (hfree hadm2)
      next d hdev =>
        split
        · exact regInv_removeClient hi cid (hfree hadm2)
        next hde =>
          split
          · exact regInv_removeClient hi cid (hfree hadm2)
          next grp hdc =>
            split
            next hmem =>
              cases hauth : info.authenticated with
              | true =>
                exact regInv_removeClientDevice hi cid info d hl hauth hadm2
                  grp hdc hmem
              | false =>
                exfalso
                have hzero := (hi.unauthFree cid info hl hauth).2
                exact ((gcount_eq_zero_iff _ _).1 hzero (d, grp)
                  (mem_of_lookupDC _ _ _ hdc)) hmem
            next hmem =>
              exact regInv_removeClient hi cid (hfree hadm2)

theorem regInv_sessionAfter {s : StepResult} (hi : RegInv s.reg)
    (cid : String) : RegInv (sessionAfter s cid) := by
  unfold sessionAfter
  split
  · exact hi
  · exact regInv_cleanup hi cid

theorem regInv_loginDevice (hi : RegInv r) (cid d : String)
    (info : ClientInfo) (hl : lookupClient r.clients cid = some info)
    (hun : info.authenticated = false)
    (cs' : List (String × ClientInfo))
    (h1 : lookupClient cs' cid = some ⟨true, some d, false⟩)
    (h2 : ∀ c, c ≠ cid → lookupClient cs' c = lookupClient r.clients c) :
    RegInv ⟨cs', dcAppend r.device_connections d cid, r.admin_clients⟩ := by
  obtain ⟨hfree, hg⟩ := hi.unauthFree cid info hl hun
  constructor
  · exact dcAppend_keys_nodup _ _ _ hi.dcNodup
  · intro a ha
    obtain ⟨info2, hl2, ha2, ha3⟩ := hi.adminSound a ha
    have hane : a ≠ cid := fun h => hfree (h ▸ ha)
    exact ⟨info2, by rw [h2 a hane]; exact hl2, ha2, ha3⟩
  · intro p hp y hy
    rcases mem_dcAppend _ _ _ _ _ hp hy with ⟨q, hq, hq1, hq2⟩ | ⟨rfl, hpd⟩
    · by_cases hyc : y = cid
      · subst hyc
        exact absurd hq2 ((gcount_eq_zero_iff _ _).1 hg q hq)
      · rcases hi.groupSound q hq y hq2 with hnone | ⟨info2, hl2, hx⟩
        · left
          rw [h2 y hyc]
          exact hnone
        · right
          refine ⟨info2, by rw [h2 y hyc]; exact hl2, hx.1, hx.2.1, ?_⟩
          rw [hx.2.2, hq1]
    · right
      refine ⟨⟨true, some d, false⟩, h1, rfl, rfl, ?_⟩
      rw [hpd]
  · intro c info2 hl2 hauth hadm2
    by_cases hcc : c = cid
    · subst hcc
      rw [h1] at hl2
      cases Option.some.inj hl2
      simp at hadm2
    · rw [h2 c hcc] at hl2
      obtain ⟨hmem, hzero⟩ := hi.authAdmin c info2 hl2 hauth hadm2
      exact ⟨hmem, by rw [gcount_dcAppend_ne _ _ _ _ hcc]; exact hzero⟩
  · intro c info2 hl2 hauth hadm2
    by_cases hcc : c = cid
    · subst hcc
      rw [h1] at hl2
      cases Option.some.inj hl2
      refine ⟨hfree, ?_⟩
      rw [gcount_dcAppend_self, hg]
    · rw [h2 c hcc] at hl2
      obtain ⟨hmem, hone⟩ := hi.authDevice c info2 hl2 hauth hadm2
      exact ⟨hmem, by rw [gcount_dcAppend_ne _ _ _ _ hcc]; exact hone⟩
  · intro c info2 hl2 hun2
    by_cases hcc : c = cid
    · subst hcc
      rw [h1] at hl2
      cases Option.some.inj hl2
      simp at hun2
    · rw [h2 c hcc] at hl2
      obtain ⟨hmem, hzero⟩ := hi.unauthFree c info2 hl2 hun2
      exact ⟨hmem, by rw [gcount_dcAppend_ne _ _ _ _ hcc]; exact hzero⟩

theorem regInv_loginAdmin (hi : RegInv r) (cid : String) (dev : Option String)
    (info : ClientInfo) (hl : lookupClient r.clients cid = some info)
    (hun : info.authenticated = false)
    (cs' : List (String × ClientInfo))
    (h1 : lookupClient cs' cid = some ⟨true, dev, true⟩)
    (h2 : ∀ c, c ≠ cid → lookupClient cs' c = lookupClient r.clients c) :
    RegInv ⟨cs', r.device_connections, adminAdd r.admin_clients cid⟩ := by
  obtain ⟨hfree, hg⟩ := hi.unauthFree cid info hl hun
  constructor
  · exact hi.dcNodup
  · intro a ha
    rcases (mem_adminAdd _ _ _).1 ha with ha1 | rfl
    · obtain ⟨info2, hl2, ha2, ha3⟩ := hi.adminSound a ha1
      have hane : a ≠ cid := fun h => hfree (h ▸ ha1)
      exact ⟨info2, by rw [h2 a hane]; exact hl2, ha2, ha3⟩
    · exact ⟨⟨true, dev, true⟩, h1, rfl, rfl⟩
  · intro p hp y hy
    by_cases hyc : y = cid
    · subst hyc
      exact absurd hy ((gcount_eq_zero_iff _ _).1 hg p hp)
    · rcases hi.groupSound p hp y hy with hnone | ⟨info2, hl2, hx⟩
      · left
        rw [h2 y hyc]
        exact hnone
      · right
        exact ⟨info2, by rw [h2 y hyc]; exact hl2, hx⟩
  · intro c info2 hl2 hauth hadm2
    by_cases hcc : c = cid
    · subst hcc
      exact ⟨(mem_adminAdd _ _ _).2 (Or.inr rfl), hg⟩
    · rw [h2 c hcc] at hl2
      obtain ⟨hmem, hzero⟩ := hi.authAdmin c info2 hl2 hauth hadm2
      exact ⟨(mem_adminAdd _ _ _).2 (Or.inl hmem), hzero⟩
  · intro c info2 hl2 hauth hadm2
    by_cases hcc : c = cid
    · subst hcc
      rw [h1] at hl2
      cases Option.some.inj hl2
      simp at hadm2
    · rw [h2 c hcc] at hl2
      obtain ⟨hmem, hone⟩ := hi.authDevice c info2 hl2 hauth hadm2
      refine ⟨fun h => ?_, hone⟩
      rcases (mem_adminAdd _ _ _).1 h with h3 | h3
      · exact hmem h3
      · exact hcc h3
  · intro c info2 hl2 hun2
    by_cases hcc : c = cid
    · subst hcc
      rw [h1] at hl2
      cases Option.some.inj hl2
      simp at hun2
    · rw [h2 c hcc] at hl2
      obtain ⟨hmem, hzero⟩ := hi.unauthFree c info2 hl2 hun2
      refine ⟨fun h => ?_, hzero⟩
      rcases (mem_adminAdd _ _ _).1 h with h3 | h3
      · exact hmem h3
      · exact hcc h3

theorem regInv_loginFail (hi : RegInv r) (cid : String)
    (info info' : ClientInfo)
    (hl : lookupClient r.clients cid = some info)
    (hun : info.authenticated = false)
    (cs' : List (String × ClientInfo))
    (h1 : lookupClient cs' cid = some info')
    (hun' : info'.authenticated = false)
    (h2 : ∀ c, c ≠ cid → lookupClient cs' c = lookupClient r.clients c) :
    RegInv ⟨cs', r.device_connections, r.admin_clients⟩ := by
  obtain ⟨hfree, hg⟩ := hi.unauthFree cid info hl hun
  constructor
  · exact hi.dcNodup
  · intro a ha
    obtain ⟨info2, hl2, ha2, ha3⟩ := hi.adminSound a ha
    have hane : a ≠ cid := fun h => hfree (h ▸ ha)
    exact ⟨info2, by rw [h2 a hane]; exact hl2, ha2, ha3⟩
  · intro p hp y hy
    by_cases hyc : y = cid
    · subst hyc
      exact absurd hy ((gcount_eq_zero_iff _ _).1 hg p hp)
    · rcases hi.groupSound p hp y hy with hnone | ⟨info2, hl2, hx⟩
      · left
        rw [h2 y hyc]
        exact hnone
      · right
        exact ⟨info2, by rw [h2 y hyc]; exact hl2, hx⟩
  · intro c info2 hl2 hauth hadm2
    by_cases hcc : c = cid
    · subst hcc
      rw [h1] at hl2
      cases Option.some.inj hl2
      rw [hun'] at hauth
      cases hauth
    · rw [h2 c hcc] at hl2
      exact hi.authAdmin c info2 hl2 hauth hadm2
  · intro c info2 hl2 hauth hadm2
    by_cases hcc : c = cid
    · subst hcc
      rw [h1] at hl2
      cases Option.some.inj hl2
      rw [hun'] at hauth
      cases hauth
    · rw [h2 c hcc] at hl2
      exact hi.authDevice c info2 hl2 hauth hadm2
  · intro c info2 hl2 hun2
    by_cases hcc : c = cid
    · subst hcc
      exact ⟨hfree, hg⟩
    · rw [h2 c hcc] at hl2
      exact hi.unauthFree c info2 hl2 hun2

theorem jsonMessageStep_reg (r : Registry) (cid : String) (now msgId : Nat)
    (pv : PayloadView) : (jsonMessageStep r cid now msgId pv).reg = r := by
  unfold jsonMessageStep
  dsimp only
  repeat' split
  all_goals rfl

theorem broadcastStep_reg (r : Registry) (cid : String) (msgId : Nat)
    (pv : PayloadView) : (broadcastStep r cid msgId pv).reg = r := by
  unfold broadcastStep
  dsimp only
  repeat' split
  all_goals rfl

theorem regInv_step (hi : RegInv r) (cid : String) (now ty msgId : Nat)
    (pv : PayloadView)
    (hlogin : ty = HYPER_TCP_CMD_LOGIN →
      ∀ info, lookupClient r.clients cid = some info →
        info.authenticated = false) :
    RegInv (sessionAfter (handleClientFrame r cid now ty msgId pv) cid) := by
  by_cases h29 : ty = HYPER_TCP_CMD_LOGIN
  case neg =>
    have hreg : (handleClientFrame r cid now ty msgId pv).reg = r := by
      unfold handleClientFrame
      rw [if_neg h29]
      repeat' split
      all_goals first
        | rfl
        | exact jsonMessageStep_reg _ _ _ _ _
        | exact broadcastStep_reg _ _ _ _
    exact regInv_sessionAfter (by rw [hreg]; exact hi) cid
  case pos =>
    subst h29
    have hun := hlogin rfl
    have hred : handleClientFrame r cid now HYPER_TCP_CMD_LOGIN msgId pv
        = loginStep r cid now msgId pv := by
      unfold handleClientFrame
      rw [if_pos rfl]
    rw [hred]
    clear hred hlogin
    unfold loginStep
    cases pv with
    | notUtf8 => exact regInv_sessionAfter hi cid
    | rawText s =>
      unfold legacyLoginStep
      dsimp only
      cases hl : lookupClient r.clients cid with
      | none => exact regInv_sessionAfter hi cid
      | some info0 =>
        dsimp only
        have hun0 : info0.authenticated = false := hun info0 hl
        by_cases hs : s = "admin_token"
        · have hd1 : decide (s = "admin_token") = true := by simp [hs]
          simp only [hd1, eq_self_iff_true, if_true]
          exact regInv_loginAdmin hi cid (some cid) info0 hl hun0 _
            (by rw [lookup_setClient_self, hl]; rfl)
            (fun c hcne => lookup_setClient_ne _ _ _ _ hcne)
        · have hd1 : decide (s = "admin_token") = false := by simp [hs]
          by_cases hs2 : s = "your_auth_token_here"
          · have hd2 : decide (s = "your_auth_token_here") = true := by
              simp [hs2]
            simp only [hd1, hd2, Bool.false_eq_true, if_false,
              eq_self_iff_true, if_true]
            exact regInv_loginDevice hi cid cid info0 hl hun0 _
              (by rw [lookup_setClient_self, hl]; rfl)
              (fun c hcne => lookup_setClient_ne _ _ _ _ hcne)
          · have hd2 : decide (s = "your_auth_token_here") = false := by
              simp [hs2]
            simp only [hd1, hd2, Bool.false_eq_true, if_false]
            refine regInv_cleanup
              (regInv_loginFail hi cid info0 _ hl hun0 _
                (by rw [lookup_setClient_self, hl]; rfl) rfl
                (fun c hcne => lookup_setClient_ne _ _ _ _ hcne)) cid
    | json j =>
      cases j with
      | str s => exact regInv_sessionAfter hi cid
      | num n => exact regInv_sessionAfter hi cid
      | bool b => exact regInv_sessionAfter hi cid
      | null => exact regInv_sessionAfter hi cid
      | arr es => exact regInv_sessionAfter hi cid
      | obj fields =>
        dsimp only
        cases hdev : objGetD fields "device_id" (Json.str cid) with
        | num n => exact regInv_sessionAfter hi cid
        | bool b => exact regInv_sessionAfter hi cid
        | null => exact regInv_sessionAfter hi cid
        | arr es => exact regInv_sessionAfter hi cid
        | obj fs => exact regInv_sessionAfter hi cid
        | str device_id =>
          dsimp only
          cases hl : lookupClient r.clients cid with
          | none => exact regInv_sessionAfter hi cid
          | some info0 =>
            dsimp only
            have hun0 : info0.authenticated = false := hun info0 hl
            by_cases hadm : (startswith device_id "admin_"
                || isStrEq (objGetD fields "token" (Json.str ""))
                  "admin_token") = true
            · simp only [hadm, eq_self_iff_true, if_true]
              by_cases hA : isStrEq (objGetD fields "token" (Json.str ""))
                  "admin_token" = true
              · simp only [hA, eq_self_iff_true, if_true]
                exact regInv_loginAdmin hi cid (some device_id) info0 hl hun0 _
                  (by
                    rw [lookup_setClient_self, lookup_setClient_self, hl]
                    rfl)
                  (fun c hcne => by
                    rw [lookup_setClient_ne _ _ _ _ hcne,
                      lookup_setClient_ne _ _ _ _ hcne])
              · have hA2 : isStrEq (objGetD fields "token" (Json.str ""))
                    "admin_token" = false := by
                  simpa using hA
                simp only [hA2, Bool.false_eq_true, if_false]
                refine regInv_cleanup
                  (regInv_loginFail hi cid info0 _ hl hun0 _
                    (by rw [lookup_setClient_self, hl]; rfl) rfl
                    (fun c hcne => lookup_setClient_ne _ _ _ _ hcne)) cid
            · have hadm2 : (startswith device_id "admin_"
                  || isStrEq (objGetD fields "token" (Json.str ""))
                    "admin_token") = false := by
                simpa using hadm
              simp only [hadm2, Bool.false_eq_true, if_false]
              by_cases hA : isStrEq (objGetD fields "token" (Json.str ""))
                  "your_auth_token_here" = true
              · simp only [hA, eq_self_iff_true, if_true]
                exact regInv_loginDevice hi cid device_id info0 hl hun0 _
                  (by
                    rw [lookup_setClient_self, lookup_setClient_self, hl]
                    rfl)
                  (fun c hcne => by
                    rw [lookup_setClient_ne _ _ _ _ hcne,
                      lookup_setClient_ne _ _ _ _ hcne])
              · have hA2 : isStrEq (objGetD fields "token" (Json.str ""))
                    "your_auth_token_here" = false := by
                  simpa using hA
                simp only [hA2, Bool.false_eq_true, if_false]
                refine regInv_cleanup
                  (regInv_loginFail hi cid info0 _ hl hun0 _
                    (by rw [lookup_setClient_self, hl]; rfl) rfl
                    (fun c hcne => lookup_setClient_ne _ _ _ _ hcne)) cid

/-- C2 (amended): in every registry state reachable while each connection
sends at most one LOGIN after authenticating (i.e. no already-authenticated
connection sends a further LOGIN), every connection id in the table is in
the admin set and no device group, or outside the admin set and in exactly
one device-group slot, or — if unauthenticated — in neither.  A second
successful LOGIN on one connection breaks this, as the counterexample
shows. -/
theorem c2_registry_invariant (r : Registry) (h : ReachSL r) :
    claimInvariant r := by
  have hinv : RegInv r := by
    induction h with
    | empty => exact regInv_empty
    | register r0 cid hr hfresh hg ih => exact regInv_register ih cid hfresh hg
    | frame r0 cid now ty msgId pv hr hlogin ih =>
      exact regInv_step ih cid now ty msgId pv hlogin
    | disconnect r0 cid hr ih => exact regInv_cleanup ih cid
  intro cid info hl
  constructor
  · intro hauth
    cases hadm : info.is_admin with
    | true => exact Or.inl (hinv.authAdmin cid info hl hauth hadm)
    | false => exact Or.inr (hinv.authDevice cid info hl hauth hadm)
  · intro hunauth
    exact hinv.unauthFree cid info hl hunauth

/-- Witness for the amended C2: the registry reached by registering one
connection and performing one successful device LOGIN satisfies the claimed
invariant. -/
theorem c2_registry_invariant_witness :
    claimInvariant (applyOp (applyOp emptyRegistry (.register "c1"))
      (.frame "c1" 0 HYPER_TCP_CMD_LOGIN 1 (.rawText "your_auth_token_here"))) :=
  c2_registry_invariant _
    (ReachSL.frame _ "c1" 0 HYPER_TCP_CMD_LOGIN 1
      (.rawText "your_auth_token_here")
      (ReachSL.register emptyRegistry "c1" ReachSL.empty (by decide) (by decide))
      (fun _ info hinfo => by
        cases Option.some.inj hinfo
        rfl))

theorem framesOf_append (a b : List Effect) :
    framesOf (a ++ b) = framesOf a ++ framesOf b :=
  List.filterMap_append _ _ _

theorem framesOf_route (dc : List (String × List String))
    (target : Option Json) (msg : List (String × Json)) (effs : List Effect)
    (h : route_message dc target msg = some effs) : framesOf effs = [] := by
  unfold route_message at h
  repeat' split at h
  all_goals cases h
  all_goals rfl

theorem sentFrames_types (r : Registry) (cid : String) (now ty msgId : Nat)
    (pv : PayloadView) (f : OutFrame)
    (hf : f ∈ sentFrames (handleClientFrame r cid now ty msgId pv)) :
    f.type = HYPER_TCP_CMD_RESPONSE ∨ f.type = HYPER_TCP_CMD_JSON_MESSAGE := by
  unfold handleClientFrame loginStep legacyLoginStep jsonMessageStep
    broadcastStep at hf
  dsimp only at hf
  repeat' split at hf
  all_goals
    simp_all [sentFrames, framesOf, framesOf_append, framesOf_route,
      welcomeFrame, pongFrame, HYPER_TCP_CMD_RESPONSE,
      HYPER_TCP_CMD_JSON_MESSAGE]
  all_goals try (rcases hf with (⟨a, ha, hfa⟩ | hf))
  all_goals try (obtain ⟨a, ha, hfa⟩ := hf)
  all_goals try
    (have h0 := List.filterMap_eq_nil_iff.1 (framesOf_route _ _ _ _ (by assumption))
     rw [h0 a ha] at hfa
     cases hfa)
  all_goals try
    (rename_i hx
     have h0 := List.filterMap_eq_nil_iff.1 (framesOf_route _ _ _ _ (by assumption))
     have h2 := hx.2
     rw [h0 _ hx.1] at h2
     cases h2)
  all_goals try (rename_i hx; first
    | (rcases hx with (rfl | rfl | rfl))
    | (rcases hx with (rfl | rfl))
    | (rcases hx with rfl))
  all_goals simp

/-- C10: a REDIRECT (type 41) frame on an authenticated connection is
handled exactly like an unknown type — a RESPONSE echoing its MsgId with
the single payload byte 2, registry untouched, session still reading —
and no handler path ever writes a frame of any type other than RESPONSE
(0) or JSON_MESSAGE (30), so none produces a REDIRECT. -/
theorem c10_redirect_reserved :
    (∀ (r : Registry) (cid : String) (now msgId : Nat) (pv : PayloadView)
        (info : ClientInfo), lookupClient r.clients cid = some info →
        info.authenticated = true →
        handleClientFrame r cid now HYPER_TCP_CMD_REDIRECT msgId pv =
          ⟨.cont, [.sendSelf ⟨HYPER_TCP_CMD_RESPONSE, msgId, .statusByte 2⟩],
           r⟩) ∧
    (∀ (r : Registry) (cid : String) (now ty msgId : Nat) (pv : PayloadView)
        (f : OutFrame),
        f ∈ sentFrames (handleClientFrame r cid now ty msgId pv) →
        f.type = HYPER_TCP_CMD_RESPONSE ∨
        f.type = HYPER_TCP_CMD_JSON_MESSAGE) := by
  constructor
  · intro r cid now msgId pv info hlook hauth
    simp [handleClientFrame, HYPER_TCP_CMD_REDIRECT, HYPER_TCP_CMD_LOGIN,
      HYPER_TCP_CMD_PING, HYPER_TCP_CMD_JSON_MESSAGE, HYPER_TCP_CMD_BROADCAST,
      HYPER_TCP_CMD_RESPONSE]
  · intro r cid now ty msgId pv f hf
    exact sentFrames_types r cid now ty msgId pv f hf

/-- Witness for C10: a concrete REDIRECT frame on an authenticated
connection, and the type of the concrete frame it elicits. -/
theorem c10_redirect_reserved_witness :
    handleClientFrame demoRegAuth "c1" 0 HYPER_TCP_CMD_REDIRECT 7
        (.rawText "") =
      ⟨.cont, [.sendSelf ⟨HYPER_TCP_CMD_RESPONSE, 7, .statusByte 2⟩],
       demoRegAuth⟩ ∧
    ((OutFrame.mk HYPER_TCP_CMD_RESPONSE 7 (.statusByte 2)).type
        = HYPER_TCP_CMD_RESPONSE ∨
     (OutFrame.mk HYPER_TCP_CMD_RESPONSE 7 (.statusByte 2)).type
        = HYPER_TCP_CMD_JSON_MESSAGE) :=
  ⟨c10_redirect_reserved.1 demoRegAuth "c1" 0 7 (.rawText "")
      ⟨true, some "devA", false⟩ (by decide) rfl,
   c10_redirect_reserved.2 demoRegAuth "c1" 0 HYPER_TCP_CMD_REDIRECT 7
      (.rawText "") ⟨HYPER_TCP_CMD_RESPONSE, 7, .statusByte 2⟩
      (List.Mem.head _)⟩

end HyperTCP
